import Mathlib

/-!
Shallow embedding of the diff-aware CSV export/versioning engine of
`src/backend/services/sync-service.ts` (shift_application repository),
together with proofs of the specification claims about it.

Conventions of the embedding:
* A JavaScript `CsvRow = Record<string, string | number>` is modelled as an
  association list `List (String × CellValue)` that preserves the insertion
  order of the fields, because `JSON.stringify` (used for row fingerprints)
  serialises fields in insertion order.
* `RowHashMap = Record<string, string>` is an association list with unique
  keys in insertion order; `Object.entries` / `Object.keys` iterate it in
  that order.
* File-system effects are made explicit: `writeCsvWithDiff` takes the
  parsed persisted index as input and returns the new index plus the
  written file (path and content), mirroring the reads/writes the
  TypeScript function performs.  `Date.now()` and
  `new Date().toISOString()` become explicit `ts`/`createdAt` parameters.
* `fs.readFile` + `JSON.parse` in `readIndex` become an
  `Option RawIndex` input: `none` when the index file is absent or
  unparseable, `some` of the parsed record (with each field optional, as
  JSON fields may be missing) otherwise.
-/

namespace SyncService

/-- A scalar cell value of a CSV row: `string | number` in the source.
Numbers in the rows built by this service are integers (ids, 0/1 flags). -/
inductive CellValue where
  | str (s : String)
  | num (n : Int)
deriving DecidableEq

/-- `CsvRow = Record<string, string | number>`, as an association list
preserving field insertion order (see module docstring). -/
abbrev CsvRow := List (String × CellValue)

/-- `row[h]` : JavaScript property access, `none` when the key is absent. -/
def rowGet (row : CsvRow) (h : String) : Option CellValue :=
  (row.find? (fun p => p.1 == h)).map (fun p => p.2)

/-- JavaScript `String(value)` on a cell value. -/
def cellToString : CellValue → String
  | .str s => s
  | .num n => toString n

/-- JavaScript `String(value)` with `null`/`undefined` mapped to `""`,
as in the first line of `csvEscape`. -/
def rawString : Option CellValue → String
  | none => ""
  | some v => cellToString v

/-- The test `/[",\r\n]/.test(raw)` of `csvEscape`. -/
def isSpecialChar (c : Char) : Bool :=
  c = '"' || c = ',' || c = '\r' || c = '\n'

/-- `raw.replace(/"/g, "\"\"")` : double every double quote. -/
def doubleQuotes : List Char → List Char
  | [] => []
  | c :: rest =>
      if c = '"' then '"' :: '"' :: doubleQuotes rest
      else c :: doubleQuotes rest

/-- `csvEscape` from the source: emit the raw string verbatim unless it
contains `"`, `,`, `\r` or `\n`, in which case wrap it in double quotes
with internal double quotes doubled. -/
def csvEscape (value : Option CellValue) : String :=
  let raw := rawString value
  if raw.toList.any isSpecialChar then
    ⟨'"' :: (doubleQuotes raw.toList ++ ['"'])⟩
  else raw

/-- `rowsToCsv` from the source: header line (column names comma-joined),
one line per row with each declared column escaped, lines joined by `\n`,
plus a trailing `\n`. -/
def rowsToCsv (headers : List String) (rows : List CsvRow) : String :=
  let lines :=
    (String.intercalate "," headers) ::
      rows.map (fun row =>
        String.intercalate "," (headers.map (fun h => csvEscape (rowGet row h))))
  String.intercalate "\n" lines ++ "\n"

/-- JSON string escaping as performed by `JSON.stringify` on the string
values and keys of a row (quote, backslash, and control characters). -/
def jsonEscapeChar (c : Char) : List Char :=
  if c = '"' then ['\\', '"']
  else if c = '\\' then ['\\', '\\']
  else if c = '\n' then ['\\', 'n']
  else if c = '\r' then ['\\', 'r']
  else if c = '\t' then ['\\', 't']
  else if c = '\x08' then ['\\', 'b']
  else if c = '\x0c' then ['\\', 'f']
  else if c.toNat < 32 then
    ['\\', 'u', '0', '0',
      (Nat.digitChar (c.toNat / 16)), (Nat.digitChar (c.toNat % 16))]
  else [c]

/-- JSON escaping of a whole string (without the surrounding quotes). -/
def jsonEscape (s : String) : String :=
  ⟨(s.toList.map jsonEscapeChar).flatten⟩

/-- `JSON.stringify` of one cell value. -/
def jsonStringifyCell : CellValue → String
  | .str s => "\"" ++ jsonEscape s ++ "\""
  | .num n => toString n

/-- `JSON.stringify(row)` : fields serialised in insertion order, i.e. in
the order the object's properties were constructed. -/
def jsonStringifyRow (row : CsvRow) : String :=
  "\x7b" ++
    String.intercalate ","
      (row.map (fun p => "\"" ++ jsonEscape p.1 ++ "\":" ++ jsonStringifyCell p.2)) ++
  "\x7d"

/-- `RowHashMap = Record<string, string>` : association list with unique
keys, in insertion order. -/
abbrev RowHashMap := List (String × String)

/-- `k in m` for a record. -/
def hasKey (m : RowHashMap) (k : String) : Bool :=
  m.any (fun p => p.1 == k)

/-- `m[k]` for a record (the unique binding when keys are unique). -/
def getVal (m : RowHashMap) (k : String) : Option String :=
  (m.find? (fun p => p.1 == k)).map (fun p => p.2)

/-- `out[key] = value` on a JavaScript object: updating an existing key
keeps its position, a new key is appended. -/
def recordSet (m : RowHashMap) (k v : String) : RowHashMap :=
  if hasKey m k then m.map (fun p => if p.1 == k then (k, v) else p)
  else m ++ [(k, v)]

/-- `makeRowHashes` from the source: for each row in order, set
`out[keyFn(row)] = JSON.stringify(row)`. -/
def makeRowHashes (rows : List CsvRow) (keyFn : CsvRow → String) : RowHashMap :=
  rows.foldl (fun out row => recordSet out (keyFn row) (jsonStringifyRow row)) []

/-- The `{inserted, updated, deleted}` diff record. -/
structure ExportDiff where
  inserted : Nat
  updated : Nat
  deleted : Nat
deriving DecidableEq

/-- The first loop of `calcDiff`: over the entries of `after`, count
insertions (key absent from `before`) and updates (key present with a
different serialised value). -/
def calcDiffLoop1 (before : RowHashMap) (d : ExportDiff) (after : RowHashMap) : ExportDiff :=
  after.foldl
    (fun d p =>
      if ¬ hasKey before p.1 then { d with inserted := d.inserted + 1 }
      else if getVal before p.1 ≠ some p.2 then { d with updated := d.updated + 1 }
      else d)
    d

/-- The second loop of `calcDiff`: over the keys of `before`, count
deletions (key absent from `after`). -/
def calcDiffLoop2 (after : RowHashMap) (d : ExportDiff) (before : RowHashMap) : ExportDiff :=
  before.foldl
    (fun d p => if ¬ hasKey after p.1 then { d with deleted := d.deleted + 1 } else d)
    d

/-- `calcDiff` from the source. -/
def calcDiff (before after : RowHashMap) : ExportDiff :=
  calcDiffLoop2 after (calcDiffLoop1 before ⟨0, 0, 0⟩ after) before

/-- One entry of the `files` history of the persisted index. -/
structure FileEntry where
  version : Nat
  fileName : String
  filePath : String
  createdAt : String
deriving DecidableEq

/-- The `ExportIndex` record of the source. `latestFilePath` is
`string | null`. -/
structure ExportIndex where
  latestVersion : Nat
  latestFilePath : Option String
  rowHashes : RowHashMap
  files : List FileEntry
deriving DecidableEq

/-- `DEFAULT_INDEX` from the source: the zero-value index. -/
def DEFAULT_INDEX : ExportIndex :=
  { latestVersion := 0, latestFilePath := none, rowHashes := [], files := [] }

/-- The result of `JSON.parse` on a persisted index file: each field may be
missing (`none`), in which case `readIndex` substitutes a default with `??`. -/
structure RawIndex where
  latestVersion : Option Nat
  latestFilePath : Option (Option String)
  rowHashes : Option RowHashMap
  files : Option (List FileEntry)

/-- `readIndex` from the source.  The `persisted` argument is `none` when
the index file is absent or its content is unparseable (the `catch`
branch), and `some parsed` when `JSON.parse` succeeded. -/
def readIndex (persisted : Option RawIndex) : ExportIndex :=
  match persisted with
  | none => DEFAULT_INDEX
  | some parsed =>
      { latestVersion := parsed.latestVersion.getD 0
        latestFilePath := parsed.latestFilePath.getD none
        rowHashes := parsed.rowHashes.getD []
        files := parsed.files.getD [] }

/-- JavaScript truthiness of `index.latestFilePath` (a `string | null`):
`!index.latestFilePath` is true exactly for `null` and `""`. -/
def pathFalsy : Option String → Bool
  | none => true
  | some s => s = ""

/-- `String(version).padStart(4, "0")`. -/
def padStart4 (n : Nat) : String :=
  let s := toString n
  ⟨List.replicate (4 - s.length) '0'⟩ ++ s

/-- The artifact file name:
`` `${filePrefix}_v${String(version).padStart(4, "0")}_${ts}.csv` ``
(`filePrefix` is spelled `filePref` throughout this embedding). -/
def mkFileName (filePref : String) (version : Nat) (ts : Nat) : String :=
  filePref ++ "_v" ++ padStart4 version ++ "_" ++ toString ts ++ ".csv"

/-- `path.join(baseDir, fileName)` for the simple relative names used here. -/
def pathJoin (baseDir fileName : String) : String :=
  baseDir ++ "/" ++ fileName

/-- The artifact reference returned by `writeCsvWithDiff`. -/
structure Artifact where
  fileName : String
  filePath : String
  version : Nat
deriving DecidableEq

/-- The full outcome of one `writeCsvWithDiff` call: the returned record
(`changed`, `diff`, `artifact`), the index persisted afterwards (equal to
the input index when nothing changed), and the CSV file written, as
`some (path, content)` when a new artifact was produced. -/
structure WriteResult where
  changed : Bool
  diff : ExportDiff
  artifact : Option Artifact
  newIndex : ExportIndex
  writtenFile : Option (String × String)
deriving DecidableEq

/-- `writeCsvWithDiff` from the source, with the file system made
explicit: `index` is the result of `readIndex` on the dataset's index
file, `ts` is `Date.now()` and `createdAt` is `new Date().toISOString()`. -/
def writeCsvWithDiff (baseDir filePref : String) (headers : List String)
    (rows : List CsvRow) (keyFn : CsvRow → String) (index : ExportIndex)
    (ts : Nat) (createdAt : String) : WriteResult :=
  let rowHashes := makeRowHashes rows keyFn
  let diff := calcDiff index.rowHashes rowHashes
  let changed := diff.inserted + diff.updated + diff.deleted > 0 || pathFalsy index.latestFilePath
  if changed then
    let version := index.latestVersion + 1
    let fileName := mkFileName filePref version ts
    let filePath := pathJoin baseDir fileName
    { changed := true
      diff := diff
      artifact := some ⟨fileName, filePath, version⟩
      newIndex :=
        { latestVersion := version
          latestFilePath := some filePath
          rowHashes := rowHashes
          files := index.files ++ [⟨version, fileName, filePath, createdAt⟩] }
      writtenFile := some (filePath, rowsToCsv headers rows) }
  else
    let latest := index.files.getLast?
    { changed := false
      diff := diff
      artifact := latest.map (fun l => ⟨l.fileName, l.filePath, l.version⟩)
      newIndex := index
      writtenFile := none }

/-- One availability-detail line of a shift submission (the fields used by
the export: `targetDate`, `availability` — an enum rendered as its string
value — and the optional `memo`). -/
structure ShiftDetail where
  targetDate : String
  availability : String
  memo : Option String
deriving DecidableEq

/-- A shift submission (the fields `runCsvSync` reads: `id`, `yearMonth`,
`employeeId`, `details`). -/
structure ShiftSubmission where
  id : Nat
  yearMonth : String
  employeeId : Nat
  details : List ShiftDetail
deriving DecidableEq

/-- An employee record (the fields the exports read). -/
structure Employee where
  id : Nat
  employeeCode : String
  displayName : String
  department : Option String
  isActive : Bool
deriving DecidableEq

/-- `buildSubmissionRows` from the source: one row per detail line, fields
constructed in the fixed order of the object literal. -/
def buildSubmissionRows (s : ShiftSubmission) (employeeName : String) : List CsvRow :=
  s.details.map (fun d =>
    [("submission_id", CellValue.num s.id),
     ("year_month", CellValue.str s.yearMonth),
     ("employee_id", CellValue.num s.employeeId),
     ("employee_name", CellValue.str employeeName),
     ("target_date", CellValue.str d.targetDate),
     ("availability", CellValue.str d.availability),
     ("time_range", CellValue.str (d.memo.getD ""))])

/-- `employeeNameById.get(id)` for the `Map` built from the employee list
(`new Map(pairs)`: on duplicate keys the last binding wins). -/
def mapGet (pairs : List (Nat × String)) (k : Nat) : Option String :=
  (pairs.reverse.find? (fun p => p.1 == k)).map (fun p => p.2)

/-- `processSubmission` from the source (the `setTimeout` suspension has no
observable effect in the model): throws `"details is empty"` when the
submission has no detail lines, otherwise builds its rows with the resolved
employee name (falling back to `employee-<id>`). -/
def processSubmission (s : ShiftSubmission) (nameById : List (Nat × String)) :
    Except String (List CsvRow) :=
  if s.details.length = 0 then .error "details is empty"
  else
    .ok (buildSubmissionRows s ((mapGet nameById s.employeeId).getD
      ("employee-" ++ toString s.employeeId)))

/-- `` `${x}` `` : JavaScript template interpolation of a possibly-undefined
cell value (`undefined` renders as the string `"undefined"`). -/
def jsString : Option CellValue → String
  | none => "undefined"
  | some v => cellToString v

/-- The natural key of a submissions row:
`` `${row.submission_id}:${row.target_date}` ``. -/
def subKey (row : CsvRow) : String :=
  jsString (rowGet row "submission_id") ++ ":" ++ jsString (rowGet row "target_date")

/-- The `csvRows.sort(...)` comparison: `localeCompare` on the natural
keys, modelled as the lexicographic order on strings. -/
def subKeyLE (a b : CsvRow) : Prop := subKey a ≤ subKey b

instance : DecidableRel subKeyLE :=
  fun a b => inferInstanceAs (Decidable (subKey a ≤ subKey b))

/-- The strict version of `subKeyLE`. -/
def subKeyLT (a b : CsvRow) : Prop := subKey a < subKey b

instance : IsTotal CsvRow subKeyLE := ⟨fun a b => le_total (subKey a) (subKey b)⟩

instance : IsTrans CsvRow subKeyLE := ⟨fun _ _ _ hab hbc => le_trans hab hbc⟩

instance : IsAntisymm CsvRow subKeyLT := ⟨fun _ _ hab hba => absurd hba (lt_asymm hab)⟩

/-- The sort of the aggregated submission rows by natural key (JavaScript
`Array.prototype.sort` is stable; so is insertion sort). -/
def sortSubRows (rows : List CsvRow) : List CsvRow :=
  List.insertionSort subKeyLE rows

/-- The submissions dataset's header list. -/
def subHeaders : List String :=
  ["submission_id", "year_month", "employee_id", "employee_name",
   "target_date", "availability", "time_range"]

/-- The submissions dataset's `keyFn`. -/
def subKeyFn : CsvRow → String := subKey

/-- `Number(row.employee_id)` for the employee-roster sort comparator. -/
def empRowId (row : CsvRow) : Int :=
  match rowGet row "employee_id" with
  | some (.num n) => n
  | _ => 0

/-- The employee-roster row built by `exportEmployeesCsvDiff`. -/
def buildEmployeeRow (e : Employee) : CsvRow :=
  [("employee_id", CellValue.num e.id),
   ("employee_code", CellValue.str e.employeeCode),
   ("display_name", CellValue.str e.displayName),
   ("department", CellValue.str (e.department.getD "")),
   ("is_active", CellValue.num (if e.isActive then 1 else 0))]

/-- The employee-roster header list. -/
def empHeaders : List String :=
  ["employee_id", "employee_code", "display_name", "department", "is_active"]

/-- `exportEmployeesCsvDiff` from the source, with the employee list (from
`listEmployees()`), the parsed index and the timestamps passed explicitly. -/
def exportEmployeesCsvDiff (employees : List Employee) (index : ExportIndex)
    (ts : Nat) (createdAt : String) : WriteResult :=
  let rows := List.insertionSort (fun a b => empRowId a ≤ empRowId b)
    (employees.map buildEmployeeRow)
  writeCsvWithDiff "storage/csv/employees" "employees" empHeaders rows
    (fun row => jsString (rowGet row "employee_id")) index ts createdAt

/-- `yearMonth.replace("-", "")` : JavaScript `replace` with a string
pattern removes only the first occurrence. -/
def removeFirstDash : List Char → List Char
  | [] => []
  | c :: rest => if c = '-' then rest else c :: removeFirstDash rest

/-- One SyncItem row of the job ledger. -/
structure SyncItem where
  shiftSubmissionId : Nat
  status : String
  errorMessage : Option String
deriving DecidableEq

/-- A persistence call made against the job ledger, in program order. -/
inductive DbEvent where
  | createJob (triggeredByUserId : Nat) (triggerType : String)
      (spreadsheetId : String) (sheetName : String) (status : String)
  | addItem (syncJobId : Nat) (shiftSubmissionId : Nat) (status : String)
      (errorMessage : Option String)
  | finishJob (id : Nat) (status : String) (errorMessage : Option String)
deriving DecidableEq

/-- The SyncItem recorded for one settled projection attempt. -/
def itemOf (s : ShiftSubmission) (r : Except String (List CsvRow)) : SyncItem :=
  match r with
  | .ok _ => ⟨s.id, "success", none⟩
  | .error msg => ⟨s.id, "failed", some msg⟩

/-- Everything `runCsvSync` returns (job status, summary counts, both
export results) plus the aggregated sorted rows, for stating properties. -/
structure SyncOutcome where
  items : List SyncItem
  jobStatus : String
  jobErrorMessage : Option String
  sortedRows : List CsvRow
  submissionsExport : WriteResult
  employeesExport : WriteResult
  total : Nat
  success : Nat
  failed : Nat
deriving DecidableEq

/-- `runCsvSync` from the source, with the collaborators made explicit:
`employees` is `listEmployees()`, `jobId` the id the DB assigns to the
created job, `subIndex`/`empIndex` the parsed persisted indices of the two
datasets, `ts`/`createdAt` the timestamps.  The first component lists the
job-ledger persistence calls in program order; the second is the thrown
error or the returned value.  `Promise.allSettled` preserves input order,
so the settled results line up with `submissions` by position. -/
def runCsvSync (yearMonth : String) (triggeredByUserId : Nat)
    (triggerType : String) (submissions : List ShiftSubmission)
    (employees : List Employee) (jobId : Nat) (subIndex empIndex : ExportIndex)
    (ts : Nat) (createdAt : String) : List DbEvent × Except String SyncOutcome :=
  if submissions.length = 0 then ([], .error "no submissions for target month")
  else
    let nameById := employees.map (fun e => (e.id, e.displayName))
    let settled := submissions.map (fun s => processSubmission s nameById)
    let items := (submissions.zip settled).map (fun p => itemOf p.1 p.2)
    let failedCount := settled.countP (fun r => match r with
      | .ok _ => false
      | .error _ => true)
    let csvRows := (settled.filterMap Except.toOption).flatten
    let sorted := sortSubRows csvRows
    let subExport := writeCsvWithDiff ("storage/csv/" ++ yearMonth)
      (⟨removeFirstDash yearMonth.toList⟩ ++ "_submissions") subHeaders sorted
      subKeyFn subIndex ts createdAt
    let empExport := exportEmployeesCsvDiff employees empIndex ts createdAt
    let status := if failedCount > 0 then "failed" else "success"
    let errMsg := if failedCount > 0
      then some "some rows failed during parallel csv export" else none
    let events :=
      DbEvent.createJob triggeredByUserId triggerType "csv-export"
          ("csv_" ++ yearMonth) "running" ::
        (items.map (fun it =>
          DbEvent.addItem jobId it.shiftSubmissionId it.status it.errorMessage) ++
         [DbEvent.finishJob jobId status errMsg])
    (events,
     .ok { items := items
           jobStatus := status
           jobErrorMessage := errMsg
           sortedRows := sorted
           submissionsExport := subExport
           employeesExport := empExport
           total := submissions.length
           success := submissions.length - failedCount
           failed := failedCount })

/-- `inserted + updated + deleted`. -/
def diffTotal (d : ExportDiff) : Nat := d.inserted + d.updated + d.deleted

/-- The input of one export attempt in a sequence of attempts against the
same dataset: the projected rows and the two timestamps of the attempt. -/
structure ExportInput where
  rows : List CsvRow
  ts : Nat
  createdAt : String

/-- Record a written file (if any) into the artifact store
(path → file content). -/
def updateStore (store : String → Option String) :
    Option (String × String) → String → Option String
  | none => store
  | some (p, c) => fun q => if q = p then some c else store q

/-- A sequence of `writeCsvWithDiff` calls against one dataset, threading
both the persisted index and the artifact store (path → file content).
The store starts empty (`fun _ => none`) on a fresh dataset. -/
def runExportsFS (baseDir filePref : String) (headers : List String)
    (keyFn : CsvRow → String) (start : ExportIndex × (String → Option String)) :
    List ExportInput → ExportIndex × (String → Option String)
  | [] => start
  | e :: rest =>
      runExportsFS baseDir filePref headers keyFn
        ((writeCsvWithDiff baseDir filePref headers e.rows keyFn start.1
            e.ts e.createdAt).newIndex,
         updateStore start.2
           (writeCsvWithDiff baseDir filePref headers e.rows keyFn start.1
             e.ts e.createdAt).writtenFile) rest

/-- Undo the doubling of double quotes inside a quoted field. -/
def undouble : List Char → List Char
  | [] => []
  | [c] => [c]
  | c :: c' :: rest =>
      if c = '"' ∧ c' = '"' then '"' :: undouble rest
      else c :: undouble (c' :: rest)

/-- Modelled from the spec: the field-decoding step of a "conformant
tabular reader" (§8.7 of the spec; the repository itself ships no reader).
A field starting with a double quote is unwrapped (outer quotes stripped,
doubled quotes collapsed); any other field is taken verbatim. -/
def csvUnescape (s : String) : String :=
  match s.toList with
  | '"' :: rest => ⟨undouble rest.dropLast⟩
  | _ => s

/-- `lines.join("\n") + "\n"` seen line by line: every line, header
included, is terminated by `\n`. -/
def joinLines : List String → String
  | [] => ""
  | l :: rest => l ++ "\n" ++ joinLines rest

/-! ### Lemmas about the record operations -/

theorem hasKey_iff_mem (m : RowHashMap) (k : String) :
    hasKey m k = true ↔ k ∈ m.map Prod.fst := by
  unfold hasKey
  rw [List.any_eq_true]
  constructor
  · rintro ⟨p, hp, he⟩
    exact (beq_iff_eq.mp he) ▸ List.mem_map_of_mem Prod.fst hp
  · intro hk
    rcases List.mem_map.mp hk with ⟨p, hp, he⟩
    exact ⟨p, hp, beq_iff_eq.mpr he⟩

theorem getVal_of_mem : ∀ {m : RowHashMap} {p : String × String},
    (m.map Prod.fst).Nodup → p ∈ m → getVal m p.1 = some p.2 := by
  intro m
  induction m with
  | nil => intro p _ hp; cases hp
  | cons q rest ih =>
      intro p hnd hp
      rw [List.map_cons, List.nodup_cons] at hnd
      rcases List.mem_cons.mp hp with hp | hp
      · subst hp; simp [getVal, List.find?]
      · have hne : (q.1 == p.1) = false := by
          refine beq_eq_false_iff_ne.mpr (fun he => hnd.1 ?_)
          exact he ▸ List.mem_map_of_mem Prod.fst hp
        simpa [getVal, List.find?, hne] using ih hnd.2 hp

theorem recordSet_map_fst (m : RowHashMap) (k v : String) :
    (recordSet m k v).map Prod.fst =
      if hasKey m k = true then m.map Prod.fst else m.map Prod.fst ++ [k] := by
  unfold recordSet
  by_cases h : hasKey m k = true
  · rw [if_pos h, if_pos h, List.map_map]
    refine List.map_congr_left (fun p _ => ?_)
    by_cases hpk : (p.1 == k) = true
    · simpa [Function.comp, hpk] using (beq_iff_eq.mp hpk).symm
    · simp [Function.comp, hpk]
  · rw [if_neg h, if_neg h, List.map_append]
    rfl

theorem recordSet_keys_nodup {m : RowHashMap} (h : (m.map Prod.fst).Nodup)
    (k v : String) : ((recordSet m k v).map Prod.fst).Nodup := by
  rw [recordSet_map_fst]
  by_cases hk : hasKey m k = true
  · rwa [if_pos hk]
  · rw [if_neg hk]
    have hmem : k ∉ m.map Prod.fst := fun hmem => hk ((hasKey_iff_mem m k).mpr hmem)
    simp [List.nodup_append, h, hmem]

theorem makeRowHashes_keys_nodup (rows : List CsvRow) (keyFn : CsvRow → String) :
    ((makeRowHashes rows keyFn).map Prod.fst).Nodup := by
  suffices aux : ∀ (l : List CsvRow) (acc : RowHashMap), (acc.map Prod.fst).Nodup →
      ((l.foldl (fun out row => recordSet out (keyFn row) (jsonStringifyRow row))
        acc).map Prod.fst).Nodup by
    exact aux rows [] (by simp)
  intro l
  induction l with
  | nil => intro acc h; simpa using h
  | cons r rest ih => intro acc h; exact ih _ (recordSet_keys_nodup h _ _)

/-! ### Lemmas about the diff computation -/

theorem calcDiffLoop1_eq (before : RowHashMap) (d : ExportDiff) (after : RowHashMap) :
    calcDiffLoop1 before d after =
      ⟨d.inserted + after.countP (fun p => ! hasKey before p.1),
       d.updated + after.countP (fun p => hasKey before p.1 &&
         decide (getVal before p.1 ≠ some p.2)),
       d.deleted⟩ := by
  induction after generalizing d with
  | nil => simp [calcDiffLoop1]
  | cons p rest ih =>
      unfold calcDiffLoop1 at ih ⊢
      rw [List.foldl_cons]
      by_cases h1 : hasKey before p.1 = true
      · by_cases h2 : getVal before p.1 = some p.2
        · rw [ih]
          simp [h1, h2, List.countP_cons]
        · rw [ih]
          simp only [h1, h2, List.countP_cons, ExportDiff.mk.injEq]
          simp [h1, h2]
          omega
      · rw [ih]
        simp only [h1, List.countP_cons, ExportDiff.mk.injEq]
        simp [h1]
        omega

theorem calcDiffLoop2_eq (after : RowHashMap) (d : ExportDiff) (before : RowHashMap) :
    calcDiffLoop2 after d before =
      ⟨d.inserted, d.updated,
       d.deleted + before.countP (fun p => ! hasKey after p.1)⟩ := by
  induction before generalizing d with
  | nil => simp [calcDiffLoop2]
  | cons p rest ih =>
      unfold calcDiffLoop2 at ih ⊢
      rw [List.foldl_cons]
      by_cases h1 : hasKey after p.1 = true
      · rw [ih]; simp [h1, List.countP_cons]
      · rw [ih]
        simp only [h1, List.countP_cons, ExportDiff.mk.injEq]
        simp [h1]
        omega

theorem calcDiff_eq (before after : RowHashMap) :
    calcDiff before after =
      ⟨after.countP (fun p => ! hasKey before p.1),
       after.countP (fun p => hasKey before p.1 &&
         decide (getVal before p.1 ≠ some p.2)),
       before.countP (fun p => ! hasKey after p.1)⟩ := by
  unfold calcDiff
  rw [calcDiffLoop2_eq, calcDiffLoop1_eq]
  simp

theorem calcDiff_self {m : RowHashMap} (h : (m.map Prod.fst).Nodup) :
    calcDiff m m = ⟨0, 0, 0⟩ := by
  rw [calcDiff_eq]
  have h1 : ∀ p ∈ m, hasKey m p.1 = true :=
    fun p hp => (hasKey_iff_mem m p.1).mpr (List.mem_map_of_mem Prod.fst hp)
  simp only [ExportDiff.mk.injEq]
  refine ⟨List.countP_eq_zero.mpr ?_, List.countP_eq_zero.mpr ?_,
    List.countP_eq_zero.mpr ?_⟩
  · intro p hp; simp [h1 p hp]
  · intro p hp; simp [h1 p hp, getVal_of_mem h hp]
  · intro p hp; simp [h1 p hp]

theorem calcDiff_nil_after (m : RowHashMap) : calcDiff m [] = ⟨0, 0, m.length⟩ := by
  rw [calcDiff_eq]
  simp [hasKey]

/-! ### Lemmas about artifact paths -/

theorem pathJoin_ne_empty (a b : String) : pathJoin a b ≠ "" := by
  intro h
  have h2 := congrArg String.length h
  have h3 : ("/" : String).length = 1 := rfl
  have h4 : ("" : String).length = 0 := rfl
  rw [pathJoin, String.length_append, String.length_append, h3, h4] at h2
  omega

theorem pathFalsy_pathJoin (a b : String) :
    pathFalsy (some (pathJoin a b)) = false := by
  simp only [pathFalsy]
  exact decide_eq_false (pathJoin_ne_empty a b)

/-- Branch characterization of `writeCsvWithDiff`: when the diff is empty
and the stored latest path is truthy, nothing happens. -/
theorem writeCsvWithDiff_unchanged {baseDir fp : String} {headers : List String}
    {rows : List CsvRow} {keyFn : CsvRow → String} {idx : ExportIndex} {ts : Nat}
    {ca : String}
    (hd : diffTotal (calcDiff idx.rowHashes (makeRowHashes rows keyFn)) = 0)
    (hp : pathFalsy idx.latestFilePath = false) :
    writeCsvWithDiff baseDir fp headers rows keyFn idx ts ca =
      ⟨false, calcDiff idx.rowHashes (makeRowHashes rows keyFn),
       idx.files.getLast?.map (fun l => ⟨l.fileName, l.filePath, l.version⟩),
       idx, none⟩ := by
  have h : decide (diffTotal (calcDiff idx.rowHashes (makeRowHashes rows keyFn)) > 0)
      = false := decide_eq_false (by omega)
  simp only [diffTotal] at h
  simp [writeCsvWithDiff, h, hp]
  simp only [diffTotal] at hd
  omega

/-- Branch characterization of `writeCsvWithDiff`: when the diff is
non-empty or the stored latest path is falsy, a new version is written. -/
theorem writeCsvWithDiff_changed_result {baseDir fp : String}
    {headers : List String} {rows : List CsvRow} {keyFn : CsvRow → String}
    {idx : ExportIndex} {ts : Nat} {ca : String}
    (h : diffTotal (calcDiff idx.rowHashes (makeRowHashes rows keyFn)) > 0 ∨
      pathFalsy idx.latestFilePath = true) :
    writeCsvWithDiff baseDir fp headers rows keyFn idx ts ca =
      ⟨true, calcDiff idx.rowHashes (makeRowHashes rows keyFn),
       some ⟨mkFileName fp (idx.latestVersion + 1) ts,
             pathJoin baseDir (mkFileName fp (idx.latestVersion + 1) ts),
             idx.latestVersion + 1⟩,
       ⟨idx.latestVersion + 1,
        some (pathJoin baseDir (mkFileName fp (idx.latestVersion + 1) ts)),
        makeRowHashes rows keyFn,
        idx.files ++ [⟨idx.latestVersion + 1, mkFileName fp (idx.latestVersion + 1) ts,
          pathJoin baseDir (mkFileName fp (idx.latestVersion + 1) ts), ca⟩]⟩,
       some (pathJoin baseDir (mkFileName fp (idx.latestVersion + 1) ts),
             rowsToCsv headers rows)⟩ := by
  have hcond : (decide ((calcDiff idx.rowHashes (makeRowHashes rows keyFn)).inserted +
      (calcDiff idx.rowHashes (makeRowHashes rows keyFn)).updated +
      (calcDiff idx.rowHashes (makeRowHashes rows keyFn)).deleted > 0) ||
      pathFalsy idx.latestFilePath) = true := by
    rcases h with h | h
    · simp only [diffTotal] at h
      simp [h]
    · simp [h]
  simp [writeCsvWithDiff, hcond]
  intro h1 h2 h3
  rcases h with h | h
  · simp only [diffTotal] at h
    omega
  · exact h

/-! ### Claim theorems -/

/-- C9: calling `runCsvSync` with an empty submissions list throws
`"no submissions for target month"` before any job-ledger persistence
call is made: the event list is empty and the result is the error, so no
SyncRun job record and no SyncItems are persisted for that call. -/
theorem claim_C9 (yearMonth : String) (uid : Nat) (tt : String)
    (employees : List Employee) (jobId : Nat) (subIndex empIndex : ExportIndex)
    (ts : Nat) (ca : String) :
    runCsvSync yearMonth uid tt [] employees jobId subIndex empIndex ts ca =
      ([], Except.error "no submissions for target month") := rfl

/-- C1: an absent or unparseable persisted index loads as the zero-value
index (version 0, null latest path, empty hashes, empty history); the
next export attempt from that index reports `changed = true`, allocates
version 1 and writes a file, even for an empty row set; and in general
(for any index whose persisted `latestFilePath` is not the corrupt
empty-string value) `changed` is true exactly when
`inserted + updated + deleted > 0` or no artifact has ever been written
(`latestFilePath` is null). -/
theorem claim_C1 :
    (readIndex none = DEFAULT_INDEX ∧ DEFAULT_INDEX =
      { latestVersion := 0, latestFilePath := none, rowHashes := [], files := [] })
    ∧ (∀ baseDir fp headers rows keyFn ts ca,
        (writeCsvWithDiff baseDir fp headers rows keyFn (readIndex none) ts
          ca).changed = true
        ∧ (writeCsvWithDiff baseDir fp headers rows keyFn (readIndex none) ts
            ca).artifact.map Artifact.version = some 1
        ∧ (writeCsvWithDiff baseDir fp headers rows keyFn (readIndex none) ts
            ca).writtenFile ≠ none)
    ∧ (∀ baseDir fp headers rows keyFn (idx : ExportIndex) ts ca,
        idx.latestFilePath ≠ some "" →
        ((writeCsvWithDiff baseDir fp headers rows keyFn idx ts ca).changed = true ↔
          diffTotal (calcDiff idx.rowHashes (makeRowHashes rows keyFn)) > 0 ∨
            idx.latestFilePath = none)) := by
  refine ⟨⟨rfl, rfl⟩, ?_, ?_⟩
  · intro baseDir fp headers rows keyFn ts ca
    refine ⟨?_, ?_, ?_⟩ <;>
      simp [writeCsvWithDiff, readIndex, DEFAULT_INDEX, pathFalsy]
  · intro baseDir fp headers rows keyFn idx ts ca h
    cases hlf : idx.latestFilePath with
    | none => simp [writeCsvWithDiff, hlf, pathFalsy, diffTotal]
    | some s =>
        have hs : s ≠ "" := fun e => h (by rw [hlf, e])
        by_cases hp : diffTotal (calcDiff idx.rowHashes (makeRowHashes rows keyFn)) > 0
        · simp only [diffTotal] at hp
          simp [writeCsvWithDiff, hlf, pathFalsy, hs, diffTotal, hp]
        · simp only [diffTotal] at hp
          simp [writeCsvWithDiff, hlf, pathFalsy, hs, diffTotal, hp]

/-- Witness for C1: concrete instantiation of the hypothesis-carrying
conjunct, at a non-corrupt index with one stored row hash and an empty
current row set. -/
theorem claim_C1_witness :
    (writeCsvWithDiff "storage/csv/2026-03" "202603_submissions" subHeaders []
      subKeyFn
      { latestVersion := 3, latestFilePath := some "storage/csv/2026-03/a.csv",
        rowHashes := [("1:2026-03-01", "x")], files := [] } 7 "t").changed = true ↔
      diffTotal (calcDiff [("1:2026-03-01", "x")] (makeRowHashes [] subKeyFn)) > 0 ∨
        (some "storage/csv/2026-03/a.csv" : Option String) = none :=
  claim_C1.2.2 "storage/csv/2026-03" "202603_submissions" subHeaders [] subKeyFn
    { latestVersion := 3, latestFilePath := some "storage/csv/2026-03/a.csv",
      rowHashes := [("1:2026-03-01", "x")], files := [] } 7 "t" (by decide)

/-- C2: when the computed diff is all-zero and an artifact already exists
(the stored latest path is truthy), the writer returns `changed = false`
with the existing latest artifact reference (or null when the history is
empty), writes no file and leaves the index unchanged; consequently a
second export with byte-identical rows — whatever the first did — reports
`changed = false`, writes nothing and keeps the index of the first run. -/
theorem claim_C2 :
    (∀ baseDir fp headers rows keyFn (idx : ExportIndex) ts ca,
      calcDiff idx.rowHashes (makeRowHashes rows keyFn) = ⟨0, 0, 0⟩ →
      pathFalsy idx.latestFilePath = false →
      (writeCsvWithDiff baseDir fp headers rows keyFn idx ts ca).changed = false
      ∧ (writeCsvWithDiff baseDir fp headers rows keyFn idx ts ca).artifact =
          idx.files.getLast?.map (fun l => ⟨l.fileName, l.filePath, l.version⟩)
      ∧ (writeCsvWithDiff baseDir fp headers rows keyFn idx ts ca).writtenFile = none
      ∧ (writeCsvWithDiff baseDir fp headers rows keyFn idx ts ca).newIndex = idx)
    ∧ (∀ baseDir fp headers rows keyFn (idx : ExportIndex) ts ca ts2 ca2,
      (writeCsvWithDiff baseDir fp headers rows keyFn
        (writeCsvWithDiff baseDir fp headers rows keyFn idx ts ca).newIndex
        ts2 ca2).changed = false
      ∧ (writeCsvWithDiff baseDir fp headers rows keyFn
          (writeCsvWithDiff baseDir fp headers rows keyFn idx ts ca).newIndex
          ts2 ca2).newIndex =
        (writeCsvWithDiff baseDir fp headers rows keyFn idx ts ca).newIndex
      ∧ (writeCsvWithDiff baseDir fp headers rows keyFn
          (writeCsvWithDiff baseDir fp headers rows keyFn idx ts ca).newIndex
          ts2 ca2).writtenFile = none) := by
  constructor
  · intro baseDir fp headers rows keyFn idx ts ca hd hp
    have e := @writeCsvWithDiff_unchanged baseDir fp headers rows keyFn idx ts ca
      (by rw [hd]; rfl) hp
    rw [e]
    exact ⟨rfl, rfl, rfl, rfl⟩
  · intro baseDir fp headers rows keyFn idx ts ca ts2 ca2
    rcases Classical.em (diffTotal (calcDiff idx.rowHashes (makeRowHashes rows keyFn)) > 0
        ∨ pathFalsy idx.latestFilePath = true) with hc | hc
    · have e1 := @writeCsvWithDiff_changed_result baseDir fp headers rows keyFn
        idx ts ca hc
      rw [e1]
      have hd2 : diffTotal (calcDiff (makeRowHashes rows keyFn)
          (makeRowHashes rows keyFn)) = 0 := by
        rw [calcDiff_self (makeRowHashes_keys_nodup rows keyFn)]
        rfl
      have e2 := @writeCsvWithDiff_unchanged baseDir fp headers rows keyFn
        ⟨idx.latestVersion + 1,
          some (pathJoin baseDir (mkFileName fp (idx.latestVersion + 1) ts)),
          makeRowHashes rows keyFn,
          idx.files ++ [⟨idx.latestVersion + 1, mkFileName fp (idx.latestVersion + 1) ts,
            pathJoin baseDir (mkFileName fp (idx.latestVersion + 1) ts), ca⟩]⟩
        ts2 ca2
        hd2 (pathFalsy_pathJoin baseDir (mkFileName fp (idx.latestVersion + 1) ts))
      rw [e2]
      exact ⟨rfl, rfl, rfl⟩
    · rw [not_or] at hc
      have hd : diffTotal (calcDiff idx.rowHashes (makeRowHashes rows keyFn)) = 0 := by
        have := hc.1
        omega
      have hp : pathFalsy idx.latestFilePath = false := by
        have := hc.2
        revert this
        cases pathFalsy idx.latestFilePath <;> simp
      have e1 := @writeCsvWithDiff_unchanged baseDir fp headers rows keyFn idx
        ts ca hd hp
      rw [e1]
      have e2 := @writeCsvWithDiff_unchanged baseDir fp headers rows keyFn idx
        ts2 ca2 hd hp
      rw [e2]
      exact ⟨rfl, rfl, rfl⟩

/-- Witness for C2: the hypothesis-carrying first conjunct instantiated
at an index with an empty hash map, an existing artifact and an empty
current row set. -/
theorem claim_C2_witness :
    (writeCsvWithDiff "storage/csv/employees" "employees" empHeaders []
      (fun row => jsString (rowGet row "employee_id"))
      { latestVersion := 2, latestFilePath := some "storage/csv/employees/e.csv",
        rowHashes := [], files := [⟨2, "e.csv", "storage/csv/employees/e.csv", "t"⟩] }
      9 "t2").changed = false
    ∧ (writeCsvWithDiff "storage/csv/employees" "employees" empHeaders []
        (fun row => jsString (rowGet row "employee_id"))
        { latestVersion := 2, latestFilePath := some "storage/csv/employees/e.csv",
          rowHashes := [], files := [⟨2, "e.csv", "storage/csv/employees/e.csv", "t"⟩] }
        9 "t2").artifact =
      (([⟨2, "e.csv", "storage/csv/employees/e.csv", "t"⟩] :
        List FileEntry).getLast?).map (fun l => ⟨l.fileName, l.filePath, l.version⟩)
    ∧ (writeCsvWithDiff "storage/csv/employees" "employees" empHeaders []
        (fun row => jsString (rowGet row "employee_id"))
        { latestVersion := 2, latestFilePath := some "storage/csv/employees/e.csv",
          rowHashes := [], files := [⟨2, "e.csv", "storage/csv/employees/e.csv", "t"⟩] }
        9 "t2").writtenFile = none
    ∧ (writeCsvWithDiff "storage/csv/employees" "employees" empHeaders []
        (fun row => jsString (rowGet row "employee_id"))
        { latestVersion := 2, latestFilePath := some "storage/csv/employees/e.csv",
          rowHashes := [], files := [⟨2, "e.csv", "storage/csv/employees/e.csv", "t"⟩] }
        9 "t2").newIndex =
      { latestVersion := 2, latestFilePath := some "storage/csv/employees/e.csv",
        rowHashes := [], files := [⟨2, "e.csv", "storage/csv/employees/e.csv", "t"⟩] } :=
  claim_C2.1 "storage/csv/employees" "employees" empHeaders []
    (fun row => jsString (rowGet row "employee_id"))
    { latestVersion := 2, latestFilePath := some "storage/csv/employees/e.csv",
      rowHashes := [], files := [⟨2, "e.csv", "storage/csv/employees/e.csv", "t"⟩] }
    9 "t2" (by rfl) (by rfl)

set_option maxRecDepth 8000 in
/-- C3: the diff reports `inserted` = number of current entries whose key
is absent from the previous map, `updated` = number of current entries
whose key is present but whose serialised value differs, `deleted` =
number of previous entries whose key is absent from the current map; and
concretely, altering only the `memo`/`time_range` field of one row of a
two-row submission yields `updated = 1, inserted = 0, deleted = 0` and
triggers a new version. -/
theorem claim_C3 :
    (∀ before after, calcDiff before after =
      ⟨after.countP (fun p => ! hasKey before p.1),
       after.countP (fun p => hasKey before p.1 &&
         decide (getVal before p.1 ≠ some p.2)),
       before.countP (fun p => ! hasKey after p.1)⟩)
    ∧ ((writeCsvWithDiff "storage/csv/2026-03" "202603_submissions" subHeaders
        (buildSubmissionRows ⟨1, "2026-03", 10,
          [⟨"2026-03-01", "available", some "09:00-17:00"⟩,
           ⟨"2026-03-02", "unavailable", some "13:00-17:00"⟩]⟩ "Sato")
        subKeyFn
        ⟨1, some "storage/csv/2026-03/v1.csv",
         makeRowHashes (buildSubmissionRows ⟨1, "2026-03", 10,
           [⟨"2026-03-01", "available", some "09:00-17:00"⟩,
            ⟨"2026-03-02", "unavailable", some "14:00-18:00"⟩]⟩ "Sato") subKeyFn,
         [⟨1, "v1.csv", "storage/csv/2026-03/v1.csv", "t0"⟩]⟩
        99 "t1").diff = ⟨0, 1, 0⟩
      ∧ (writeCsvWithDiff "storage/csv/2026-03" "202603_submissions" subHeaders
          (buildSubmissionRows ⟨1, "2026-03", 10,
            [⟨"2026-03-01", "available", some "09:00-17:00"⟩,
             ⟨"2026-03-02", "unavailable", some "13:00-17:00"⟩]⟩ "Sato")
          subKeyFn
          ⟨1, some "storage/csv/2026-03/v1.csv",
           makeRowHashes (buildSubmissionRows ⟨1, "2026-03", 10,
             [⟨"2026-03-01", "available", some "09:00-17:00"⟩,
              ⟨"2026-03-02", "unavailable", some "14:00-18:00"⟩]⟩ "Sato") subKeyFn,
           [⟨1, "v1.csv", "storage/csv/2026-03/v1.csv", "t0"⟩]⟩
          99 "t1").changed = true
      ∧ (writeCsvWithDiff "storage/csv/2026-03" "202603_submissions" subHeaders
          (buildSubmissionRows ⟨1, "2026-03", 10,
            [⟨"2026-03-01", "available", some "09:00-17:00"⟩,
             ⟨"2026-03-02", "unavailable", some "13:00-17:00"⟩]⟩ "Sato")
          subKeyFn
          ⟨1, some "storage/csv/2026-03/v1.csv",
           makeRowHashes (buildSubmissionRows ⟨1, "2026-03", 10,
             [⟨"2026-03-01", "available", some "09:00-17:00"⟩,
              ⟨"2026-03-02", "unavailable", some "14:00-18:00"⟩]⟩ "Sato") subKeyFn,
           [⟨1, "v1.csv", "storage/csv/2026-03/v1.csv", "t0"⟩]⟩
          99 "t1").newIndex.latestVersion = 2) :=
  ⟨calcDiff_eq, rfl, rfl, rfl⟩

/-- Counterexample to C4 as stated: the fingerprint `JSON.stringify(row)`
serialises fields in insertion order, so these two rows — equal as
mappings from column name to value — have different fingerprints. -/
theorem claim_C4_counterexample :
    (∀ k, rowGet [("a", CellValue.str "1"), ("b", CellValue.str "2")] k =
          rowGet [("b", CellValue.str "2"), ("a", CellValue.str "1")] k)
    ∧ jsonStringifyRow [("a", CellValue.str "1"), ("b", CellValue.str "2")] ≠
      jsonStringifyRow [("b", CellValue.str "2"), ("a", CellValue.str "1")] := by
  constructor
  · intro k
    by_cases h1 : ("a" == k) = true
    · have h2 : ("b" == k) = false := by
        have := beq_iff_eq.mp h1
        subst this
        rfl
      simp [rowGet, List.find?, h1, h2]
    · have h1' : ("a" == k) = false := by
        revert h1
        cases ("a" == k) <;> simp
      by_cases h2 : ("b" == k) = true
      · simp [rowGet, List.find?, h1', h2]
      · have h2' : ("b" == k) = false := by
          revert h2
          cases ("b" == k) <;> simp
        simp [rowGet, List.find?, h1', h2']
  · decide

/-- C4 (amended): the fingerprint serialises fields in insertion order,
so order-canonicity holds only among rows whose fields were constructed
in the same order; in particular any two rows produced by the row
projector `buildSubmissionRows` — which always constructs the seven
fields in one fixed order — that are equal as mappings from column name
to value have identical fingerprints. -/
theorem claim_C4 (s1 s2 : ShiftSubmission) (n1 n2 : String) (r1 r2 : CsvRow)
    (h1 : r1 ∈ buildSubmissionRows s1 n1) (h2 : r2 ∈ buildSubmissionRows s2 n2)
    (hmap : ∀ k, rowGet r1 k = rowGet r2 k) :
    jsonStringifyRow r1 = jsonStringifyRow r2 := by
  obtain ⟨d1, hd1, rfl⟩ := List.mem_map.mp h1
  obtain ⟨d2, hd2, rfl⟩ := List.mem_map.mp h2
  have eid : some (CellValue.num s1.id) = some (CellValue.num s2.id) :=
    hmap "submission_id"
  have eym : some (CellValue.str s1.yearMonth) = some (CellValue.str s2.yearMonth) :=
    hmap "year_month"
  have eeid : some (CellValue.num s1.employeeId) =
      some (CellValue.num s2.employeeId) := hmap "employee_id"
  have ename : some (CellValue.str n1) = some (CellValue.str n2) :=
    hmap "employee_name"
  have etd : some (CellValue.str d1.targetDate) =
      some (CellValue.str d2.targetDate) := hmap "target_date"
  have eav : some (CellValue.str d1.availability) =
      some (CellValue.str d2.availability) := hmap "availability"
  have emm : some (CellValue.str (d1.memo.getD "")) =
      some (CellValue.str (d2.memo.getD "")) := hmap "time_range"
  simp only [Option.some.injEq, CellValue.num.injEq, CellValue.str.injEq]
    at eid eym eeid ename etd eav emm
  simp [eid, eym, eeid, ename, etd, eav, emm]

/-- Witness for C4 (amended), at one concrete projector-produced row. -/
theorem claim_C4_witness :
    jsonStringifyRow (buildSubmissionRows
      ⟨1, "2026-03", 2, [⟨"2026-03-01", "available", none⟩]⟩ "A").head! =
    jsonStringifyRow (buildSubmissionRows
      ⟨1, "2026-03", 2, [⟨"2026-03-01", "available", none⟩]⟩ "A").head! :=
  claim_C4 ⟨1, "2026-03", 2, [⟨"2026-03-01", "available", none⟩]⟩
    ⟨1, "2026-03", 2, [⟨"2026-03-01", "available", none⟩]⟩ "A" "A" _ _
    (by decide) (by decide) (fun k => rfl)

/-! ### Lemmas about the CSV serialization -/

theorem intercalate_go_append (s : String) : ∀ (l : List String) (x y : String),
    String.intercalate.go (x ++ y) s l = x ++ String.intercalate.go y s l := by
  intro l
  induction l with
  | nil => intro x y; rfl
  | cons c l' ih =>
      intro x y
      show String.intercalate.go (x ++ y ++ s ++ c) s l' =
        x ++ String.intercalate.go (y ++ s ++ c) s l'
      rw [String.append_assoc x y s, String.append_assoc x (y ++ s) c]
      exact ih x (y ++ s ++ c)

theorem intercalate_cons_cons (s a b : String) (l : List String) :
    String.intercalate s (a :: b :: l) = a ++ s ++ String.intercalate s (b :: l) := by
  show String.intercalate.go a s (b :: l) = a ++ s ++ String.intercalate.go b s l
  show String.intercalate.go (a ++ s ++ b) s l = a ++ s ++ String.intercalate.go b s l
  exact intercalate_go_append s l (a ++ s) b

theorem intercalate_newline_joinLines : ∀ (xs : List String) (x : String),
    String.intercalate "\n" (x :: xs) ++ "\n" = joinLines (x :: xs) := by
  intro xs
  induction xs with
  | nil =>
      intro x
      show String.intercalate "\n" [x] ++ "\n" = x ++ "\n" ++ ""
      rw [String.append_empty]
      rfl
  | cons y ys ih =>
      intro x
      rw [intercalate_cons_cons]
      show x ++ "\n" ++ String.intercalate "\n" (y :: ys) ++ "\n" =
        x ++ "\n" ++ joinLines (y :: ys)
      rw [String.append_assoc (x ++ "\n") (String.intercalate "\n" (y :: ys)) "\n"]
      rw [ih y]

theorem undouble_doubleQuotes : ∀ l : List Char, undouble (doubleQuotes l) = l := by
  intro l
  induction l with
  | nil => rfl
  | cons c rest ih =>
      by_cases hc : c = '"'
      · subst hc
        simp [doubleQuotes, undouble, ih]
      · cases rest with
        | nil => simp [doubleQuotes, undouble, hc]
        | cons r rs =>
            have hD : ∃ d t, doubleQuotes (r :: rs) = d :: t := by
              by_cases hr : r = '"' <;> simp [doubleQuotes, hr]
            obtain ⟨d, t, hDt⟩ := hD
            have hdq : doubleQuotes (c :: r :: rs) = c :: doubleQuotes (r :: rs) := by
              simp [doubleQuotes, hc]
            rw [hdq, hDt]
            have e : undouble (c :: d :: t) = c :: undouble (d :: t) := by
              simp [undouble, hc]
            rw [e, ← hDt, ih]

theorem csvUnescape_of_head_ne {c : Char} (rest : List Char) (hc : c ≠ '"') :
    csvUnescape ⟨c :: rest⟩ = ⟨c :: rest⟩ := by
  unfold csvUnescape
  split
  · rename_i r heq
    have h2 : c :: rest = '"' :: r := heq
    injection h2 with h3 _
    exact absurd h3 hc
  · rfl

theorem csvEscape_roundtrip (s : String) :
    csvUnescape (csvEscape (some (CellValue.str s))) = s := by
  obtain ⟨l⟩ := s
  by_cases h : l.any isSpecialChar = true
  · have e : csvEscape (some (CellValue.str ⟨l⟩)) =
        ⟨'"' :: (doubleQuotes l ++ ['"'])⟩ := by
      show (if l.any isSpecialChar = true then
          (⟨'"' :: (doubleQuotes l ++ ['"'])⟩ : String) else ⟨l⟩) =
        ⟨'"' :: (doubleQuotes l ++ ['"'])⟩
      rw [if_pos h]
    rw [e]
    show String.mk (undouble (doubleQuotes l ++ ['"']).dropLast) = ⟨l⟩
    rw [List.dropLast_concat, undouble_doubleQuotes]
  · have h' : l.any isSpecialChar = false := by
      revert h
      cases l.any isSpecialChar <;> simp
    have e : csvEscape (some (CellValue.str ⟨l⟩)) = ⟨l⟩ := by
      show (if l.any isSpecialChar = true then
          (⟨'"' :: (doubleQuotes l ++ ['"'])⟩ : String) else ⟨l⟩) = ⟨l⟩
      rw [if_neg (by simp [h'])]
    rw [e]
    cases l with
    | nil => rfl
    | cons c rest =>
        have hc : c ≠ '"' := by
          intro hcq
          have := List.any_eq_false.mp h' c (List.mem_cons_self c rest)
          rw [hcq] at this
          exact this rfl
        exact csvUnescape_of_head_ne rest hc

/-- C6: every artifact is the header row (declared column names
comma-joined, in order) followed by one line per row, each line — the
header included — terminated by `\n` (so the file ends with a trailing
newline); a field containing a comma, double quote, or line break is
wrapped in double quotes with internal quotes doubled (`Mon, "AM" only`
serialises as `"Mon, ""AM"" only"` and parses back to the original), all
other fields are emitted verbatim, and null/absent values are emitted as
the empty string. -/
theorem claim_C6 :
    (∀ (headers : List String) (rows : List CsvRow),
      rowsToCsv headers rows =
        joinLines ((String.intercalate "," headers) ::
          rows.map (fun row => String.intercalate ","
            (headers.map (fun h => csvEscape (rowGet row h))))))
    ∧ (∀ v, (rawString v).toList.any isSpecialChar = false →
        csvEscape v = rawString v)
    ∧ (∀ v, (rawString v).toList.any isSpecialChar = true →
        csvEscape v = ⟨'"' :: (doubleQuotes (rawString v).toList ++ ['"'])⟩)
    ∧ csvEscape none = ""
    ∧ csvEscape (some (CellValue.str "Mon, \"AM\" only")) = "\"Mon, \"\"AM\"\" only\""
    ∧ (∀ s : String, csvUnescape (csvEscape (some (CellValue.str s))) = s) := by
  refine ⟨?_, ?_, ?_, rfl, rfl, csvEscape_roundtrip⟩
  · intro headers rows
    exact (intercalate_newline_joinLines _ _).symm ▸
      intercalate_newline_joinLines _ (String.intercalate "," headers)
  · intro v h
    show (if (rawString v).toList.any isSpecialChar = true then
        (⟨'"' :: (doubleQuotes (rawString v).toList ++ ['"'])⟩ : String)
      else rawString v) = rawString v
    rw [if_neg (by rw [h]; exact Bool.false_ne_true)]
  · intro v h
    show (if (rawString v).toList.any isSpecialChar = true then
        (⟨'"' :: (doubleQuotes (rawString v).toList ++ ['"'])⟩ : String)
      else rawString v) = ⟨'"' :: (doubleQuotes (rawString v).toList ++ ['"'])⟩
    rw [if_pos h]

/-- Witness for C6: both escaping conjuncts instantiated concretely — a
plain value is emitted verbatim and the quoted example is wrapped with
its quotes doubled. -/
theorem claim_C6_witness :
    csvEscape (some (CellValue.str "09:00-17:00")) =
      rawString (some (CellValue.str "09:00-17:00"))
    ∧ csvEscape (some (CellValue.str "Mon, \"AM\" only")) =
      ⟨'"' :: (doubleQuotes (rawString (some
        (CellValue.str "Mon, \"AM\" only"))).toList ++ ['"'])⟩ :=
  ⟨claim_C6.2.1 (some (CellValue.str "09:00-17:00")) (by decide),
   claim_C6.2.2.1 (some (CellValue.str "Mon, \"AM\" only")) (by decide)⟩

/-- C7: the aggregated submission rows are sorted into ascending
lexicographic order of their natural key `submission_id:target_date`, and
— provided the keys of the row set are pairwise distinct, as they are
within a single export — the sorted result is the same for every
permutation of the input rows, so the artifact bytes do not depend on the
order in which the concurrent per-record projections completed. -/
theorem claim_C7 :
    (∀ rows : List CsvRow, List.Sorted subKeyLE (sortSubRows rows))
    ∧ (∀ rows1 rows2 : List CsvRow, rows1.Perm rows2 →
        (rows1.map subKey).Nodup → sortSubRows rows1 = sortSubRows rows2) := by
  constructor
  · intro rows
    exact List.sorted_insertionSort subKeyLE rows
  · intro l1 l2 hperm hnd
    have hs1 : List.Sorted subKeyLE (sortSubRows l1) :=
      List.sorted_insertionSort subKeyLE l1
    have hs2 : List.Sorted subKeyLE (sortSubRows l2) :=
      List.sorted_insertionSort subKeyLE l2
    have hp : (sortSubRows l1).Perm (sortSubRows l2) :=
      (List.perm_insertionSort subKeyLE l1).trans
        (hperm.trans (List.perm_insertionSort subKeyLE l2).symm)
    have hnd1 : ((sortSubRows l1).map subKey).Nodup :=
      ((List.perm_insertionSort subKeyLE l1).map subKey).nodup_iff.mpr hnd
    have hnd2 : ((sortSubRows l2).map subKey).Nodup :=
      (hp.map subKey).nodup_iff.mp hnd1
    have hlt1 : List.Sorted subKeyLT (sortSubRows l1) :=
      (hs1.and (List.pairwise_map.mp hnd1)).imp
        (fun h => lt_of_le_of_ne h.1 h.2)
    have hlt2 : List.Sorted subKeyLT (sortSubRows l2) :=
      (hs2.and (List.pairwise_map.mp hnd2)).imp
        (fun h => lt_of_le_of_ne h.1 h.2)
    exact List.eq_of_perm_of_sorted hp hlt1 hlt2

/-- Witness for C7: two permutations of a concrete two-row set with
distinct natural keys sort identically. -/
theorem claim_C7_witness :
    sortSubRows
      [[("submission_id", CellValue.num 1), ("target_date", CellValue.str "2026-03-02")],
       [("submission_id", CellValue.num 1), ("target_date", CellValue.str "2026-03-01")]] =
    sortSubRows
      [[("submission_id", CellValue.num 1), ("target_date", CellValue.str "2026-03-01")],
       [("submission_id", CellValue.num 1), ("target_date", CellValue.str "2026-03-02")]] :=
  claim_C7.2
    [[("submission_id", CellValue.num 1), ("target_date", CellValue.str "2026-03-02")],
     [("submission_id", CellValue.num 1), ("target_date", CellValue.str "2026-03-01")]]
    [[("submission_id", CellValue.num 1), ("target_date", CellValue.str "2026-03-01")],
     [("submission_id", CellValue.num 1), ("target_date", CellValue.str "2026-03-02")]]
    (List.Perm.swap
      [("submission_id", CellValue.num 1), ("target_date", CellValue.str "2026-03-01")]
      [("submission_id", CellValue.num 1), ("target_date", CellValue.str "2026-03-02")]
      [])
    (by decide)

/-- C5: every changed export allocates version `latestVersion + 1`,
appends exactly one history entry carrying that version, and replaces the
stored hash map with exactly that of the written rows; and starting from
the zero-value index, after any sequence of exports the history's version
column is exactly `1..latestVersion` (no gaps or repeats — so N
consecutive changed exports yield versions `1..N`),
`history.length = latestVersion`, and once a version exists the stored
`rowHashes` is exactly the hash map of the rows serialised into the most
recent artifact (the file the stored latest path points at). -/
theorem claim_C5 :
    (∀ baseDir fp headers rows keyFn (idx : ExportIndex) ts ca,
      (writeCsvWithDiff baseDir fp headers rows keyFn idx ts ca).changed = true →
      (writeCsvWithDiff baseDir fp headers rows keyFn idx ts
          ca).newIndex.latestVersion = idx.latestVersion + 1
      ∧ (writeCsvWithDiff baseDir fp headers rows keyFn idx ts ca).newIndex.files =
          idx.files ++ [⟨idx.latestVersion + 1,
            mkFileName fp (idx.latestVersion + 1) ts,
            pathJoin baseDir (mkFileName fp (idx.latestVersion + 1) ts), ca⟩]
      ∧ (writeCsvWithDiff baseDir fp headers rows keyFn idx ts
          ca).newIndex.rowHashes = makeRowHashes rows keyFn)
    ∧ (∀ baseDir fp headers keyFn (inps : List ExportInput),
      (runExportsFS baseDir fp headers keyFn (DEFAULT_INDEX, fun _ => none)
          inps).1.files.map FileEntry.version =
        List.range' 1 (runExportsFS baseDir fp headers keyFn
          (DEFAULT_INDEX, fun _ => none) inps).1.latestVersion
      ∧ (runExportsFS baseDir fp headers keyFn (DEFAULT_INDEX, fun _ => none)
          inps).1.files.length =
        (runExportsFS baseDir fp headers keyFn (DEFAULT_INDEX, fun _ => none)
          inps).1.latestVersion
      ∧ ((runExportsFS baseDir fp headers keyFn (DEFAULT_INDEX, fun _ => none)
            inps).1.latestVersion = 0
        ∨ ∃ rows p,
            (runExportsFS baseDir fp headers keyFn (DEFAULT_INDEX, fun _ => none)
              inps).1.latestFilePath = some p
            ∧ (runExportsFS baseDir fp headers keyFn (DEFAULT_INDEX, fun _ => none)
                inps).2 p = some (rowsToCsv headers rows)
            ∧ (runExportsFS baseDir fp headers keyFn (DEFAULT_INDEX, fun _ => none)
                inps).1.rowHashes = makeRowHashes rows keyFn)) := by
  constructor
  · intro baseDir fp headers rows keyFn idx ts ca
    rcases Classical.em
      (diffTotal (calcDiff idx.rowHashes (makeRowHashes rows keyFn)) > 0
        ∨ pathFalsy idx.latestFilePath = true) with hc | hc
    · rw [writeCsvWithDiff_changed_result hc]
      exact fun _ => ⟨rfl, rfl, rfl⟩
    · rw [not_or] at hc
      have hd : diffTotal (calcDiff idx.rowHashes (makeRowHashes rows keyFn)) = 0 := by
        have := hc.1
        omega
      have hp : pathFalsy idx.latestFilePath = false := by
        have := hc.2
        revert this
        cases pathFalsy idx.latestFilePath <;> simp
      rw [writeCsvWithDiff_unchanged hd hp]
      intro hfalse
      cases hfalse
  · intro baseDir fp headers keyFn inps
    suffices aux : ∀ (l : List ExportInput) (st : ExportIndex × (String → Option String)),
        (st.1.files.map FileEntry.version = List.range' 1 st.1.latestVersion
          ∧ (st.1.latestVersion = 0
            ∨ ∃ rows p, st.1.latestFilePath = some p
              ∧ st.2 p = some (rowsToCsv headers rows)
              ∧ st.1.rowHashes = makeRowHashes rows keyFn)) →
        ((runExportsFS baseDir fp headers keyFn st l).1.files.map FileEntry.version =
            List.range' 1 (runExportsFS baseDir fp headers keyFn st l).1.latestVersion
          ∧ ((runExportsFS baseDir fp headers keyFn st l).1.latestVersion = 0
            ∨ ∃ rows p,
                (runExportsFS baseDir fp headers keyFn st l).1.latestFilePath = some p
                ∧ (runExportsFS baseDir fp headers keyFn st l).2 p =
                    some (rowsToCsv headers rows)
                ∧ (runExportsFS baseDir fp headers keyFn st l).1.rowHashes =
                    makeRowHashes rows keyFn)) by
      have h0 := aux inps (DEFAULT_INDEX, fun _ => none) ⟨rfl, Or.inl rfl⟩
      refine ⟨h0.1, ?_, h0.2⟩
      have hlen := congrArg List.length h0.1
      simpa [List.length_map, List.length_range'] using hlen
    intro l
    induction l with
    | nil => intro st hP; exact hP
    | cons e rest ih =>
        intro st hP
        rcases Classical.em
          (diffTotal (calcDiff st.1.rowHashes (makeRowHashes e.rows keyFn)) > 0
            ∨ pathFalsy st.1.latestFilePath = true) with hc | hc
        · have e1 := @writeCsvWithDiff_changed_result baseDir fp headers e.rows
            keyFn st.1 e.ts e.createdAt hc
          have eN : (writeCsvWithDiff baseDir fp headers e.rows keyFn st.1
              e.ts e.createdAt).newIndex =
              ⟨st.1.latestVersion + 1,
               some (pathJoin baseDir (mkFileName fp (st.1.latestVersion + 1) e.ts)),
               makeRowHashes e.rows keyFn,
               st.1.files ++ [⟨st.1.latestVersion + 1,
                 mkFileName fp (st.1.latestVersion + 1) e.ts,
                 pathJoin baseDir (mkFileName fp (st.1.latestVersion + 1) e.ts),
                 e.createdAt⟩]⟩ := by
            rw [e1]
          have eW : (writeCsvWithDiff baseDir fp headers e.rows keyFn st.1
              e.ts e.createdAt).writtenFile =
              some (pathJoin baseDir (mkFileName fp (st.1.latestVersion + 1) e.ts),
                rowsToCsv headers e.rows) := by
            rw [e1]
          simp only [runExportsFS, eN, eW, updateStore]
          apply ih
          constructor
          · show (st.1.files ++ [(⟨st.1.latestVersion + 1,
                mkFileName fp (st.1.latestVersion + 1) e.ts,
                pathJoin baseDir (mkFileName fp (st.1.latestVersion + 1) e.ts),
                e.createdAt⟩ : FileEntry)]).map FileEntry.version =
              List.range' 1 (st.1.latestVersion + 1)
            rw [List.map_append, hP.1]
            have hr := List.range'_append_1 1 st.1.latestVersion 1
            rw [List.range'_one] at hr
            rw [Nat.add_comm 1 st.1.latestVersion] at hr
            exact hr
          · right
            refine ⟨e.rows,
              pathJoin baseDir (mkFileName fp (st.1.latestVersion + 1) e.ts),
              rfl, ?_, rfl⟩
            show (if pathJoin baseDir (mkFileName fp (st.1.latestVersion + 1) e.ts) =
                pathJoin baseDir (mkFileName fp (st.1.latestVersion + 1) e.ts)
              then some (rowsToCsv headers e.rows)
              else st.2 (pathJoin baseDir (mkFileName fp (st.1.latestVersion + 1) e.ts)))
              = some (rowsToCsv headers e.rows)
            rw [if_pos rfl]
        · rw [not_or] at hc
          have hd : diffTotal (calcDiff st.1.rowHashes
              (makeRowHashes e.rows keyFn)) = 0 := by
            have := hc.1
            omega
          have hp : pathFalsy st.1.latestFilePath = false := by
            have := hc.2
            revert this
            cases pathFalsy st.1.latestFilePath <;> simp
          have e1 := @writeCsvWithDiff_unchanged baseDir fp headers e.rows
            keyFn st.1 e.ts e.createdAt hd hp
          have eN : (writeCsvWithDiff baseDir fp headers e.rows keyFn st.1
              e.ts e.createdAt).newIndex = st.1 := by
            rw [e1]
          have eW : (writeCsvWithDiff baseDir fp headers e.rows keyFn st.1
              e.ts e.createdAt).writtenFile = none := by
            rw [e1]
          simp only [runExportsFS, eN, eW, updateStore]
          exact ih (st.1, st.2) hP

/-- Witness for C5: the step conjunct instantiated at the very first
export of a dataset (forced by the absent artifact), which allocates
version 1 and appends one history entry. -/
theorem claim_C5_witness :
    (writeCsvWithDiff "d" "p" subHeaders [] subKeyFn DEFAULT_INDEX 5
        "c").newIndex.latestVersion = DEFAULT_INDEX.latestVersion + 1
    ∧ (writeCsvWithDiff "d" "p" subHeaders [] subKeyFn DEFAULT_INDEX 5
        "c").newIndex.files =
      DEFAULT_INDEX.files ++ [⟨DEFAULT_INDEX.latestVersion + 1,
        mkFileName "p" (DEFAULT_INDEX.latestVersion + 1) 5,
        pathJoin "d" (mkFileName "p" (DEFAULT_INDEX.latestVersion + 1) 5), "c"⟩]
    ∧ (writeCsvWithDiff "d" "p" subHeaders [] subKeyFn DEFAULT_INDEX 5
        "c").newIndex.rowHashes = makeRowHashes [] subKeyFn :=
  claim_C5.1 "d" "p" subHeaders [] subKeyFn DEFAULT_INDEX 5 "c" (by rfl)

/-! ### Lemmas about the sync orchestrator -/

theorem zip_map_self {α β γ : Type _} (f : α → β) (g : α × β → γ) :
    ∀ l : List α, (l.zip (l.map f)).map g = l.map (fun a => g (a, f a)) := by
  intro l
  induction l with
  | nil => rfl
  | cons a rest ih => simp [List.zip_cons_cons, ih]

theorem itemOf_processSubmission (nameById : List (Nat × String))
    (s : ShiftSubmission) :
    itemOf s (processSubmission s nameById) =
      if s.details.length = 0 then ⟨s.id, "failed", some "details is empty"⟩
      else ⟨s.id, "success", none⟩ := by
  by_cases h : s.details.length = 0 <;> simp [processSubmission, itemOf, h]

theorem settled_filterMap (nameById : List (Nat × String)) :
    ∀ subs : List ShiftSubmission,
    (subs.map (fun s => processSubmission s nameById)).filterMap Except.toOption =
      (subs.filter (fun s => !(s.details.length == 0))).map
        (fun s => buildSubmissionRows s ((mapGet nameById s.employeeId).getD
          ("employee-" ++ toString s.employeeId))) := by
  intro subs
  induction subs with
  | nil => rfl
  | cons s rest ih =>
      simp only [List.filterMap_map] at ih ⊢
      by_cases h : s.details = []
      · have hps : processSubmission s nameById = Except.error "details is empty" := by
          simp [processSubmission, h]
        simp [List.filterMap_cons, List.filter_cons, Function.comp, hps,
          Except.toOption, h, ih]
      · have hps : processSubmission s nameById = Except.ok (buildSubmissionRows s
            ((mapGet nameById s.employeeId).getD
              ("employee-" ++ toString s.employeeId))) := by
          simp [processSubmission, h]
        simp [List.filterMap_cons, List.filter_cons, Function.comp, hps,
          Except.toOption, h, ih]

theorem settled_countP (nameById : List (Nat × String))
    (subs : List ShiftSubmission) :
    (subs.map (fun s => processSubmission s nameById)).countP (fun r =>
        match r with
        | .ok _ => false
        | .error _ => true) =
      subs.countP (fun s => s.details.length == 0) := by
  rw [List.countP_map]
  refine List.countP_congr (fun s _ => ?_)
  by_cases h : s.details.length = 0 <;> simp [Function.comp, processSubmission, h]

/-- The result of `runCsvSync` on a non-empty submission list, in closed
form: each submission yields one SyncItem (failed exactly when it has no
detail lines), the job fails iff some submission failed, and the rows of
the non-failing submissions — projected, aggregated and sorted — are
handed to the artifact writer for the month's dataset. -/
theorem runCsvSync_spec (ym : String) (uid : Nat) (tt : String)
    (subs : List ShiftSubmission) (emps : List Employee) (jobId : Nat)
    (subIdx empIdx : ExportIndex) (ts : Nat) (ca : String) (hne : subs ≠ []) :
    (runCsvSync ym uid tt subs emps jobId subIdx empIdx ts ca).2 = Except.ok
      { items := subs.map (fun s =>
          if s.details.length = 0
          then (⟨s.id, "failed", some "details is empty"⟩ : SyncItem)
          else ⟨s.id, "success", none⟩)
        jobStatus := if subs.countP (fun s => s.details.length == 0) > 0
          then "failed" else "success"
        jobErrorMessage := if subs.countP (fun s => s.details.length == 0) > 0
          then some "some rows failed during parallel csv export" else none
        sortedRows := sortSubRows ((subs.filter (fun s => !(s.details.length == 0))).map
          (fun s => buildSubmissionRows s
            ((mapGet (emps.map (fun e => (e.id, e.displayName))) s.employeeId).getD
              ("employee-" ++ toString s.employeeId)))).flatten
        submissionsExport := writeCsvWithDiff ("storage/csv/" ++ ym)
          (⟨removeFirstDash ym.toList⟩ ++ "_submissions") subHeaders
          (sortSubRows ((subs.filter (fun s => !(s.details.length == 0))).map
            (fun s => buildSubmissionRows s
              ((mapGet (emps.map (fun e => (e.id, e.displayName))) s.employeeId).getD
                ("employee-" ++ toString s.employeeId)))).flatten)
          subKeyFn subIdx ts ca
        employeesExport := exportEmployeesCsvDiff emps empIdx ts ca
        total := subs.length
        success := subs.length - subs.countP (fun s => s.details.length == 0)
        failed := subs.countP (fun s => s.details.length == 0) } := by
  have hlen : ¬(subs.length = 0) := fun h => hne (List.length_eq_zero.mp h)
  unfold runCsvSync
  rw [if_neg hlen]
  dsimp only
  rw [zip_map_self (fun s => processSubmission s
      (emps.map (fun e => (e.id, e.displayName)))) (fun p => itemOf p.1 p.2) subs]
  rw [List.map_congr_left (fun s _ => itemOf_processSubmission
      (emps.map (fun e => (e.id, e.displayName))) s)]
  rw [settled_countP (emps.map (fun e => (e.id, e.displayName))) subs]
  rw [settled_filterMap (emps.map (fun e => (e.id, e.displayName))) subs]

/-- C8: on a non-empty record set the run returns normally (it never
raises for partial failure); each input record yields exactly one
SyncItem — `failed` with the captured message `"details is empty"` when
its projection fails, `success` otherwise — one record's failure not
affecting another's item; the rows of all successful records are still
handed (sorted) to the artifact writer; and the job's terminal status is
`failed` iff at least one SyncItem failed. -/
theorem claim_C8 (ym : String) (uid : Nat) (tt : String)
    (subs : List ShiftSubmission) (emps : List Employee) (jobId : Nat)
    (subIdx empIdx : ExportIndex) (ts : Nat) (ca : String) (hne : subs ≠ []) :
    ∃ out, (runCsvSync ym uid tt subs emps jobId subIdx empIdx ts ca).2 =
        Except.ok out
      ∧ out.items.length = subs.length
      ∧ out.items = subs.map (fun s =>
          if s.details.length = 0
          then (⟨s.id, "failed", some "details is empty"⟩ : SyncItem)
          else ⟨s.id, "success", none⟩)
      ∧ (∀ it ∈ out.items, (it.status = "success" ∧ it.errorMessage = none)
          ∨ (it.status = "failed" ∧ it.errorMessage = some "details is empty"))
      ∧ (out.jobStatus = "failed" ↔ ∃ it ∈ out.items, it.status = "failed")
      ∧ (out.jobStatus = "failed" ∨ out.jobStatus = "success")
      ∧ out.sortedRows.Perm ((subs.filter (fun s => !(s.details.length == 0))).map
          (fun s => buildSubmissionRows s
            ((mapGet (emps.map (fun e => (e.id, e.displayName))) s.employeeId).getD
              ("employee-" ++ toString s.employeeId)))).flatten := by
  refine ⟨_, runCsvSync_spec ym uid tt subs emps jobId subIdx empIdx ts ca hne,
    by simp, rfl, ?_, ?_, ?_, List.perm_insertionSort subKeyLE _⟩
  · intro it hit
    obtain ⟨s, hs, rfl⟩ := List.mem_map.mp hit
    by_cases h : s.details.length = 0
    · right
      rw [if_pos h]
      exact ⟨rfl, rfl⟩
    · left
      rw [if_neg h]
      exact ⟨rfl, rfl⟩
  · by_cases hc : subs.countP (fun s => s.details.length == 0) > 0
    · rw [if_pos hc]
      constructor
      · intro _
        obtain ⟨s, hsmem, hp⟩ := List.countP_pos_iff.mp hc
        have hl : s.details.length = 0 := beq_iff_eq.mp hp
        refine ⟨_, List.mem_map_of_mem _ hsmem, ?_⟩
        rw [if_pos hl]
      · intro _
        rfl
    · rw [if_neg hc]
      have hss : ¬(("success" : String) = "failed") := by decide
      constructor
      · intro hfs
        exact absurd hfs hss
      · rintro ⟨it, hit, hstat⟩
        exfalso
        obtain ⟨s, hsmem, rfl⟩ := List.mem_map.mp hit
        by_cases h : s.details.length = 0
        · exact hc (List.countP_pos_iff.mpr ⟨s, hsmem, by simp [h]⟩)
        · rw [if_neg h] at hstat
          exact absurd hstat hss
  · by_cases hc : subs.countP (fun s => s.details.length == 0) > 0
    · rw [if_pos hc]
      exact Or.inl rfl
    · rw [if_neg hc]
      exact Or.inr rfl

/-- Witness for C8: one submission with no detail lines — the run still
returns, records one failed item, and reports the job as failed. -/
theorem claim_C8_witness :
    ∃ out, (runCsvSync "2026-03" 1 "manual" [⟨1, "2026-03", 2, []⟩] [] 1
        DEFAULT_INDEX DEFAULT_INDEX 5 "c").2 = Except.ok out
      ∧ out.items.length = ([⟨1, "2026-03", 2, []⟩] : List ShiftSubmission).length
      ∧ out.items = ([⟨1, "2026-03", 2, []⟩] : List ShiftSubmission).map (fun s =>
          if s.details.length = 0
          then (⟨s.id, "failed", some "details is empty"⟩ : SyncItem)
          else ⟨s.id, "success", none⟩)
      ∧ (∀ it ∈ out.items, (it.status = "success" ∧ it.errorMessage = none)
          ∨ (it.status = "failed" ∧ it.errorMessage = some "details is empty"))
      ∧ (out.jobStatus = "failed" ↔ ∃ it ∈ out.items, it.status = "failed")
      ∧ (out.jobStatus = "failed" ∨ out.jobStatus = "success")
      ∧ out.sortedRows.Perm
          ((([⟨1, "2026-03", 2, []⟩] : List ShiftSubmission).filter
            (fun s => !(s.details.length == 0))).map
            (fun s => buildSubmissionRows s
              ((mapGet (([] : List Employee).map
                (fun e => (e.id, e.displayName))) s.employeeId).getD
                ("employee-" ++ toString s.employeeId)))).flatten :=
  claim_C8 "2026-03" 1 "manual" [⟨1, "2026-03", 2, []⟩] [] 1
    DEFAULT_INDEX DEFAULT_INDEX 5 "c" (by decide)

/-- C10: when every submission fails projection (all have zero detail
lines), the artifact writer is still invoked with an empty row set for
the month's dataset: with N > 0 previously stored row hashes the diff is
`deleted = N`, so a new header-only artifact version is written, the
stored hash map is reset to empty and the version is bumped, while the
job itself finishes `failed` — the previous artifact is not preserved as
latest. -/
theorem claim_C10 (ym : String) (uid : Nat) (tt : String)
    (subs : List ShiftSubmission) (emps : List Employee) (jobId : Nat)
    (subIdx empIdx : ExportIndex) (ts : Nat) (ca : String)
    (hne : subs ≠ []) (hall : ∀ s ∈ subs, s.details = [])
    (hN : 0 < subIdx.rowHashes.length) :
    ∃ out, (runCsvSync ym uid tt subs emps jobId subIdx empIdx ts ca).2 =
        Except.ok out
      ∧ out.jobStatus = "failed"
      ∧ out.sortedRows = []
      ∧ out.submissionsExport.changed = true
      ∧ out.submissionsExport.diff = ⟨0, 0, subIdx.rowHashes.length⟩
      ∧ out.submissionsExport.newIndex.latestVersion = subIdx.latestVersion + 1
      ∧ out.submissionsExport.newIndex.rowHashes = []
      ∧ out.submissionsExport.writtenFile =
          some (pathJoin ("storage/csv/" ++ ym)
              (mkFileName (⟨removeFirstDash ym.toList⟩ ++ "_submissions")
                (subIdx.latestVersion + 1) ts),
            String.intercalate "," subHeaders ++ "\n") := by
  have hfilter : subs.filter (fun s => !(s.details.length == 0)) = [] := by
    refine List.filter_eq_nil_iff.mpr (fun s hs => ?_)
    simp [hall s hs]
  have hcount : subs.countP (fun s => s.details.length == 0) > 0 := by
    obtain ⟨s0, hs0⟩ : ∃ s, s ∈ subs := by
      cases subs with
      | nil => exact absurd rfl hne
      | cons a l => exact ⟨a, List.mem_cons_self a l⟩
    exact List.countP_pos_iff.mpr ⟨s0, hs0, by simp [hall s0 hs0]⟩
  have hrows : sortSubRows ((subs.filter (fun s => !(s.details.length == 0))).map
      (fun s => buildSubmissionRows s
        ((mapGet (emps.map (fun e => (e.id, e.displayName))) s.employeeId).getD
          ("employee-" ++ toString s.employeeId)))).flatten = [] := by
    rw [hfilter]
    rfl
  have h : diffTotal (calcDiff subIdx.rowHashes (makeRowHashes [] subKeyFn)) > 0
      ∨ pathFalsy subIdx.latestFilePath = true := by
    left
    rw [show makeRowHashes [] subKeyFn = ([] : RowHashMap) from rfl,
      calcDiff_nil_after]
    simpa [diffTotal] using hN
  have hch := @writeCsvWithDiff_changed_result ("storage/csv/" ++ ym)
    (⟨removeFirstDash ym.toList⟩ ++ "_submissions") subHeaders [] subKeyFn
    subIdx ts ca h
  refine ⟨_, runCsvSync_spec ym uid tt subs emps jobId subIdx empIdx ts ca hne,
    ?_, ?_, ?_, ?_, ?_, ?_, ?_⟩
  · rw [if_pos hcount]
  · exact hrows
  · show (writeCsvWithDiff ("storage/csv/" ++ ym)
        (⟨removeFirstDash ym.toList⟩ ++ "_submissions") subHeaders
        (sortSubRows ((subs.filter (fun s => !(s.details.length == 0))).map
          (fun s => buildSubmissionRows s
            ((mapGet (emps.map (fun e => (e.id, e.displayName))) s.employeeId).getD
              ("employee-" ++ toString s.employeeId)))).flatten)
        subKeyFn subIdx ts ca).changed = true
    rw [hrows, hch]
  · show (writeCsvWithDiff ("storage/csv/" ++ ym)
        (⟨removeFirstDash ym.toList⟩ ++ "_submissions") subHeaders
        (sortSubRows ((subs.filter (fun s => !(s.details.length == 0))).map
          (fun s => buildSubmissionRows s
            ((mapGet (emps.map (fun e => (e.id, e.displayName))) s.employeeId).getD
              ("employee-" ++ toString s.employeeId)))).flatten)
        subKeyFn subIdx ts ca).diff = ⟨0, 0, subIdx.rowHashes.length⟩
    rw [hrows, hch]
    show calcDiff subIdx.rowHashes (makeRowHashes [] subKeyFn) =
      (⟨0, 0, subIdx.rowHashes.length⟩ : ExportDiff)
    rw [show makeRowHashes [] subKeyFn = ([] : RowHashMap) from rfl,
      calcDiff_nil_after]
  · show (writeCsvWithDiff ("storage/csv/" ++ ym)
        (⟨removeFirstDash ym.toList⟩ ++ "_submissions") subHeaders
        (sortSubRows ((subs.filter (fun s => !(s.details.length == 0))).map
          (fun s => buildSubmissionRows s
            ((mapGet (emps.map (fun e => (e.id, e.displayName))) s.employeeId).getD
              ("employee-" ++ toString s.employeeId)))).flatten)
        subKeyFn subIdx ts ca).newIndex.latestVersion = subIdx.latestVersion + 1
    rw [hrows, hch]
  · show (writeCsvWithDiff ("storage/csv/" ++ ym)
        (⟨removeFirstDash ym.toList⟩ ++ "_submissions") subHeaders
        (sortSubRows ((subs.filter (fun s => !(s.details.length == 0))).map
          (fun s => buildSubmissionRows s
            ((mapGet (emps.map (fun e => (e.id, e.displayName))) s.employeeId).getD
              ("employee-" ++ toString s.employeeId)))).flatten)
        subKeyFn subIdx ts ca).newIndex.rowHashes = []
    rw [hrows, hch]
    rfl
  · show (writeCsvWithDiff ("storage/csv/" ++ ym)
        (⟨removeFirstDash ym.toList⟩ ++ "_submissions") subHeaders
        (sortSubRows ((subs.filter (fun s => !(s.details.length == 0))).map
          (fun s => buildSubmissionRows s
            ((mapGet (emps.map (fun e => (e.id, e.displayName))) s.employeeId).getD
              ("employee-" ++ toString s.employeeId)))).flatten)
        subKeyFn subIdx ts ca).writtenFile =
      some (pathJoin ("storage/csv/" ++ ym)
          (mkFileName (⟨removeFirstDash ym.toList⟩ ++ "_submissions")
            (subIdx.latestVersion + 1) ts),
        String.intercalate "," subHeaders ++ "\n")
    rw [hrows, hch]
    rfl

/-- Witness for C10: one zero-detail submission against an index holding
one previously exported row — the run writes a header-only version 2 and
resets the stored hashes. -/
theorem claim_C10_witness :
    ∃ out, (runCsvSync "2026-03" 1 "manual" [⟨1, "2026-03", 2, []⟩] [] 1
        ⟨1, some "storage/csv/2026-03/v1.csv", [("1:2026-03-01", "h")],
          [⟨1, "v1.csv", "storage/csv/2026-03/v1.csv", "t0"⟩]⟩
        DEFAULT_INDEX 5 "c").2 = Except.ok out
      ∧ out.jobStatus = "failed"
      ∧ out.sortedRows = []
      ∧ out.submissionsExport.changed = true
      ∧ out.submissionsExport.diff =
          ⟨0, 0, ([("1:2026-03-01", "h")] : RowHashMap).length⟩
      ∧ out.submissionsExport.newIndex.latestVersion = 1 + 1
      ∧ out.submissionsExport.newIndex.rowHashes = []
      ∧ out.submissionsExport.writtenFile =
          some (pathJoin ("storage/csv/" ++ "2026-03")
              (mkFileName (⟨removeFirstDash ("2026-03" : String).toList⟩
                ++ "_submissions") (1 + 1) 5),
            String.intercalate "," subHeaders ++ "\n") :=
  claim_C10 "2026-03" 1 "manual" [⟨1, "2026-03", 2, []⟩] [] 1
    ⟨1, some "storage/csv/2026-03/v1.csv", [("1:2026-03-01", "h")],
      [⟨1, "v1.csv", "storage/csv/2026-03/v1.csv", "t0"⟩]⟩
    DEFAULT_INDEX 5 "c" (by decide) (by decide) (by decide)

end SyncService
